import Mathlib

/-!
Verification of the chunk streaming and procedural generation engine of the
sands_of_merkhyl repository (src/chunk_management.rs, src/main.rs).

The Rust code is shallowly embedded:

* machine integers i32 and u64 are modelled as Int and Nat with explicit
  reductions modulo 2 ^ 32 and 2 ^ 64 where the code wraps;
* the f32 values produced by the rand crate Standard distribution are of the
  form (u >>> 8) / 2 ^ 24 with u a u32, hence exactly representable, and every
  f32 operation performed on them by rangemap_from_weights with the weight
  table of the source (90 and 10) is exact except the division 90/100, which
  occurs as one single shared expression; all those values are therefore
  modelled as rationals;
* bevy ECS resources (LoadedChunks, LoadedVisibleChunks, GeneratedChunks) and
  chunk entities are gathered in an explicit GameState record, and each bevy
  system becomes a function on that state; a call to Query.single that can
  find no entity is modelled by returning none;
* the camera is represented by the chunk position that camera_to_chunk_pos
  computes from its float transform (the float to chunk conversion itself is
  outside the embedding), and player vehicles and NPCs by the RowEvenPos held
  in their MapPos component;
* a Rust consuming iterator is modelled by a function returning both the
  result of Iterator.any and the elements left unconsumed, because
  chunk_unload in the source calls any twice on the same iterator.
-/

/-- ChunkPos in the source is an IVec2, a pair of i32. -/
abbrev ChunkPos := Int × Int

/-- RowEvenPos of bevy_ecs_tilemap: a global hex tile coordinate, two i32
fields q and r. -/
abbrev RowEvenPos := Int × Int

/-- TileKind of main.rs: Empty = 1, Village = 2. -/
inductive TileKind
  | Empty
  | Village
deriving DecidableEq

/-- TileVisibility of main.rs: how visible to the player a tile is. -/
inductive TileVisibility
  | Visible
  | Charted
  | Unknown
deriving DecidableEq

/-- TerrainGrid: the 32 x 32 array of TileKind produced by generate_chunk. -/
abbrev Grid := List (List TileKind)

def PLAYER_CHUNK_LOAD_DISTANCE : Int := 3
def PLAYER_CHUNK_UNLOAD_DISTANCE : Int := 5
def NPC_CHUNK_LOAD_DISTANCE : Int := 1
def NPC_CHUNK_UNLOAD_DISTANCE : Int := 2
def CAMERA_CHUNK_LOAD_DISTANCE : Int := 5
def CAMERA_CHUNK_UNLOAD_DISTANCE : Int := 10

/-- TILEMAP_CHUNK_SIZE of the source is TilemapSize 32 x 32. -/
def TILEMAP_CHUNK_SIZE_X : Int := 32
def TILEMAP_CHUNK_SIZE_Y : Int := 32

/-- chunk_and_local_from_global of chunk_management.rs lines 80 to 90:
div_euclid and rem_euclid of each axis by the chunk edge 32; on Int the Lean
operations / and % are exactly the Euclidean division and remainder, as the
first two conjuncts of chunk_and_local_roundtrip record. The remainder, an
i32 in 0 to 31, is cast to u32, modelled by Int.toNat. -/
def chunk_and_local_from_global (global_pos : RowEvenPos) : ChunkPos × (Nat × Nat) :=
  ((global_pos.1 / TILEMAP_CHUNK_SIZE_X, global_pos.2 / TILEMAP_CHUNK_SIZE_Y),
   ((global_pos.1 % TILEMAP_CHUNK_SIZE_X).toNat,
    (global_pos.2 % TILEMAP_CHUNK_SIZE_Y).toNat))

/-- global_from_chunk_and_local of chunk_management.rs lines 92 to 97. -/
def global_from_chunk_and_local (chunk : ChunkPos) (localPos : Nat × Nat) : RowEvenPos :=
  (chunk.1 * TILEMAP_CHUNK_SIZE_X + localPos.1, chunk.2 * TILEMAP_CHUNK_SIZE_Y + localPos.2)

/-- is_chunk_in_radius of chunk_management.rs lines 121 to 124: a Chebyshev
box test on both axes, written with the two RangeInclusive.contains calls of
the source. -/
def is_chunk_in_radius (origin target : ChunkPos) (radius : Int) : Bool :=
  (decide (origin.1 - radius ≤ target.1) && decide (target.1 ≤ origin.1 + radius)) &&
  (decide (origin.2 - radius ≤ target.2) && decide (target.2 ≤ origin.2 + radius))

/-- C4. For all signed integers q and r, chunk_and_local_from_global performs
Euclidean floor division and Euclidean modulo by 32 on each axis, the local
coordinates lie in [0, 32), global_from_chunk_and_local reconstructs exactly
the original pair, and the spec example q = -1, r = 31 gives chunk (-1, 0)
and local (31, 31). -/
theorem chunk_and_local_roundtrip (q r : Int) :
    (chunk_and_local_from_global (q, r)).1 = (q.ediv 32, r.ediv 32) ∧
    (chunk_and_local_from_global (q, r)).2 = ((q.emod 32).toNat, (r.emod 32).toNat) ∧
    (chunk_and_local_from_global (q, r)).2.1 < 32 ∧
    (chunk_and_local_from_global (q, r)).2.2 < 32 ∧
    global_from_chunk_and_local (chunk_and_local_from_global (q, r)).1
      (chunk_and_local_from_global (q, r)).2 = (q, r) ∧
    chunk_and_local_from_global (-1, 31) = ((-1, 0), (31, 31)) := by
  refine ⟨rfl, rfl, ?_, ?_, ?_, by decide⟩
  · simp only [chunk_and_local_from_global, TILEMAP_CHUNK_SIZE_X]
    omega
  · simp only [chunk_and_local_from_global, TILEMAP_CHUNK_SIZE_Y]
    omega
  · simp only [chunk_and_local_from_global, global_from_chunk_and_local,
      TILEMAP_CHUNK_SIZE_X, TILEMAP_CHUNK_SIZE_Y, Prod.mk.injEq]
    constructor
    · omega
    · omega

/-!
Terrain generator. SmallRng of the rand crate on a 64 bit platform is
Xoshiro256PlusPlus; its 32 byte seed is read as four little-endian u64 words,
with an all-zero seed redirected through seed_from_u64 0 (SplitMix64).
The Standard distribution for f32 draws a u32 and returns
(u >> 8) * 2 ^ (-24), and for a nested 32 x 32 array it draws the entries in
row-major order. The f32 values that occur are exactly representable, so they
are modelled as rationals.
-/

/-- to_le_bytes of an i32: the four little-endian bytes of the value taken
modulo 2 ^ 32 (two-complement representation). -/
def i32ToLeBytes (v : Int) : List Nat :=
  [((v % 2 ^ 32).toNat) % 256,
   ((v % 2 ^ 32).toNat) / 256 % 256,
   ((v % 2 ^ 32).toNat) / 2 ^ 16 % 256,
   ((v % 2 ^ 32).toNat) / 2 ^ 24 % 256]

/-- chunk_management.rs lines 71 to 73: copy the world seed and overwrite
bytes 24 to 27 with chunk_pos.x and bytes 28 to 31 with chunk_pos.y, both
little-endian. -/
def chunkSeedBytes (world_seed : List Nat) (chunk_pos : ChunkPos) : List Nat :=
  world_seed.take 24 ++ i32ToLeBytes chunk_pos.1 ++ i32ToLeBytes chunk_pos.2

/-- Internal state of Xoshiro256PlusPlus: four u64 words. -/
structure Xoshiro where
  s0 : Nat
  s1 : Nat
  s2 : Nat
  s3 : Nat

/-- rotate_left on a u64. -/
def rotl64 (x k : Nat) : Nat :=
  ((x <<< k) % 2 ^ 64) ||| ((x % 2 ^ 64) >>> (64 - k))

/-- one step of SplitMix64, returning the output and the advanced state. -/
def splitmixNext (s : Nat) : Nat × Nat :=
  let s2 := (s + 0x9e3779b97f4a7c15) % 2 ^ 64
  let z1 := ((s2 ^^^ (s2 >>> 30)) * 0xbf58476d1ce4e5b9) % 2 ^ 64
  let z2 := ((z1 ^^^ (z1 >>> 27)) * 0x94d049bb133111eb) % 2 ^ 64
  (z2 ^^^ (z2 >>> 31), s2)

/-- seed_from_u64 of the vendored xoshiro256plusplus.rs: fill the four state
words with successive SplitMix64 outputs. The read-back through from_seed is
omitted because the produced bytes are not all zero for the one state value
0 this embedding ever uses. -/
def xoshiroSeedFromU64 (state : Nat) : Xoshiro :=
  let r0 := splitmixNext state
  let r1 := splitmixNext r0.2
  let r2 := splitmixNext r1.2
  let r3 := splitmixNext r2.2
  ⟨r0.1, r1.1, r2.1, r3.1⟩

/-- read_u64_into: the little-endian u64 formed by eight bytes of the list
starting at a given offset. Bytes are reduced modulo 256 at read time. -/
def leU64At (bytes : List Nat) (off : Nat) : Nat :=
  (bytes.getD off 0 % 256) +
  (bytes.getD (off + 1) 0 % 256) * 256 ^ 1 +
  (bytes.getD (off + 2) 0 % 256) * 256 ^ 2 +
  (bytes.getD (off + 3) 0 % 256) * 256 ^ 3 +
  (bytes.getD (off + 4) 0 % 256) * 256 ^ 4 +
  (bytes.getD (off + 5) 0 % 256) * 256 ^ 5 +
  (bytes.getD (off + 6) 0 % 256) * 256 ^ 6 +
  (bytes.getD (off + 7) 0 % 256) * 256 ^ 7

/-- from_seed of Xoshiro256PlusPlus: an all-zero 32 byte seed goes through
seed_from_u64 0, any other seed is read as four little-endian u64 words. -/
def xoshiroFromSeedBytes (bytes : List Nat) : Xoshiro :=
  if bytes.all (fun b => b % 256 == 0) then xoshiroSeedFromU64 0
  else ⟨leU64At bytes 0, leU64At bytes 8, leU64At bytes 16, leU64At bytes 24⟩

/-- next_u64 of Xoshiro256PlusPlus. -/
def xoshiroNext (st : Xoshiro) : Nat × Xoshiro :=
  let result := (rotl64 ((st.s0 + st.s3) % 2 ^ 64) 23 + st.s0) % 2 ^ 64
  let t := (st.s1 <<< 17) % 2 ^ 64
  let s2a := st.s2 ^^^ st.s0
  let s3a := st.s3 ^^^ st.s1
  let s1a := st.s1 ^^^ s2a
  let s0a := st.s0 ^^^ s3a
  let s2b := s2a ^^^ t
  let s3b := rotl64 s3a 45
  (result, ⟨s0a, s1a, s2b, s3b⟩)

/-- next_u32 of a 64 bit rand_core RNG: next_u64 truncated to the low 32
bits. -/
def xoshiroNext32 (st : Xoshiro) : Nat × Xoshiro :=
  let r := xoshiroNext st
  (r.1 % 2 ^ 32, r.2)

/-- Standard distribution for f32 in rand 0.8: draw a u32, keep its top 24
bits, scale by 2 ^ (-24). The result is an exactly representable f32 in
[0, 1), modelled as a rational. -/
def standardF32 (u : Nat) : ℚ :=
  ((u >>> 8 : Nat) : ℚ) / 2 ^ 24

/-- a sequence of n successive f32 draws, returning the drawn values and the
final RNG state. -/
def drawF32s : Nat → Xoshiro → List ℚ × Xoshiro
  | 0, st => ([], st)
  | n + 1, st =>
    let r := xoshiroNext32 st
    let rest := drawF32s n r.2
    (standardF32 r.1 :: rest.1, rest.2)

/-- rng.gen for a 32 x 32 f32 array: 32 rows of 32 draws each, row-major. -/
def drawRows : Nat → Xoshiro → List (List ℚ) × Xoshiro
  | 0, st => ([], st)
  | n + 1, st =>
    let row := drawF32s 32 st
    let rest := drawRows n row.2
    (row.1 :: rest.1, rest.2)

/-- rangemap_from_weights of chunk_management.rs lines 56 to 68: half-open
ranges of cumulative weight fractions, in the order of the weight list. -/
def rangemap_from_weights (weights : List (TileKind × ℚ)) : List ((ℚ × ℚ) × TileKind) :=
  let weights_sum : ℚ := (weights.map (fun w => w.2)).sum
  (weights.foldl
    (fun acc kw =>
      (acc.1 ++ [((acc.2 / weights_sum, (acc.2 + kw.2) / weights_sum), kw.1)], acc.2 + kw.2))
    (([] : List ((ℚ × ℚ) × TileKind)), (0 : ℚ))).1

/-- RangeMap.get on the ranges built above: the value of the first half-open
range containing the key, none if no range does. -/
def rangemapGet (m : List ((ℚ × ℚ) × TileKind)) (v : ℚ) : Option TileKind :=
  match m with
  | [] => none
  | ((lo, hi), k) :: rest => if lo ≤ v ∧ v < hi then some k else rangemapGet rest v

/-- a map over a list where every element must succeed, modelling a per
element unwrap: the first failing element makes the whole map fail. -/
def traverseOption (f : α → Option β) : List α → Option (List β)
  | [] => some []
  | a :: rest =>
    match f a with
    | none => none
    | some b => (traverseOption f rest).map (fun bs => b :: bs)

/-- generate_chunk of chunk_management.rs lines 70 to 78. The per tile
rangemap.get(..).unwrap() is modelled by Option: the result is none exactly
when some drawn value lies in no range. -/
def generate_chunk (world_seed : List Nat) (chunk_pos : ChunkPos) : Option Grid :=
  let chunk_seed := chunkSeedBytes world_seed chunk_pos
  let rng := xoshiroFromSeedBytes chunk_seed
  let generated_values := (drawRows 32 rng).1
  let rangemap := rangemap_from_weights [(TileKind.Empty, 90), (TileKind.Village, 10)]
  traverseOption (fun row => traverseOption (fun v => rangemapGet rangemap v) row)
    generated_values

/-- generate_chunk with the unwrap discharged: the default branch is
unreachable by generate_chunk_total. This is the value the load systems
store in GeneratedChunks. -/
def generate_chunkD (world_seed : List Nat) (chunk_pos : ChunkPos) : Grid :=
  (generate_chunk world_seed chunk_pos).getD []

/-- every f32 produced by the Standard distribution from a u32 lies in
[0, 1). -/
theorem standardF32_bound (u : Nat) (h : u < 2 ^ 32) :
    0 ≤ standardF32 u ∧ standardF32 u < 1 := by
  unfold standardF32
  constructor
  · positivity
  · rw [div_lt_one (by positivity)]
    have hlt : u >>> 8 < 2 ^ 24 := by
      rw [Nat.shiftRight_eq_div_pow]
      omega
    calc ((u >>> 8 : Nat) : ℚ) < ((2 ^ 24 : Nat) : ℚ) := by exact_mod_cast hlt
      _ = 2 ^ 24 := by norm_num

/-- every value in a run of f32 draws lies in [0, 1). -/
theorem drawF32s_mem_bound :
    ∀ (n : Nat) (st : Xoshiro) (v : ℚ), v ∈ (drawF32s n st).1 → 0 ≤ v ∧ v < 1 := by
  intro n
  induction n with
  | zero => intro st v hv; simp [drawF32s] at hv
  | succ n ih =>
    intro st v hv
    simp only [drawF32s, List.mem_cons] at hv
    rcases hv with hv | hv
    · subst hv
      exact standardF32_bound _ (Nat.mod_lt _ (by norm_num))
    · exact ih _ _ hv

/-- every value in the 32 x 32 grid of f32 draws lies in [0, 1). -/
theorem drawRows_mem_bound :
    ∀ (n : Nat) (st : Xoshiro) (row : List ℚ), row ∈ (drawRows n st).1 →
      ∀ v ∈ row, 0 ≤ v ∧ v < 1 := by
  intro n
  induction n with
  | zero => intro st row hrow; simp [drawRows] at hrow
  | succ n ih =>
    intro st row hrow
    simp only [drawRows, List.mem_cons] at hrow
    rcases hrow with hrow | hrow
    · subst hrow
      intro v hv
      exact drawF32s_mem_bound _ _ _ hv
    · exact ih _ _ hrow

/-- the rangemap built from the weight table of generate_chunk: two adjoining
half-open ranges partitioning [0, 1). -/
theorem weight_rangemap_eq :
    rangemap_from_weights [(TileKind.Empty, 90), (TileKind.Village, 10)] =
      [((0, 9 / 10), TileKind.Empty), ((9 / 10, 1), TileKind.Village)] := by
  norm_num [rangemap_from_weights]

/-- the weighted rangemap of generate_chunk covers all of [0, 1): a drawn
value in that interval always hits a range. -/
theorem rangemapGet_weight_isSome (v : ℚ) (h0 : 0 ≤ v) (h1 : v < 1) :
    (rangemapGet (rangemap_from_weights [(TileKind.Empty, 90), (TileKind.Village, 10)])
      v).isSome = true := by
  rw [weight_rangemap_eq]
  by_cases hv : v < 9 / 10
  · simp [rangemapGet, h0, hv]
  · push_neg at hv
    simp only [rangemapGet]
    rw [if_neg (by intro hc; exact absurd hc.2 (by linarith))]
    simp [rangemapGet, hv, h1]

/-- traverseOption succeeds when the function succeeds on every element. -/
theorem traverseOption_isSome {α β : Type} (f : α → Option β) :
    ∀ l : List α, (∀ a ∈ l, (f a).isSome = true) → (traverseOption f l).isSome = true := by
  intro l
  induction l with
  | nil => intro _; simp [traverseOption]
  | cons a rest ih =>
    intro h
    have ha := h a (by simp)
    have hrest := ih (fun b hb => h b (by simp [hb]))
    simp only [traverseOption]
    rcases hfa : f a with _ | b
    · rw [hfa] at ha; simp at ha
    · rcases hrec : traverseOption f rest with _ | bs
      · rw [hrec] at hrest; simp at hrest
      · simp

/-- C5. For every world seed and chunk coordinate, generate_chunk returns a
full grid: every pseudorandom f32 drawn in [0, 1) falls inside some range of
the rangemap built from the weight table Empty 90, Village 10, so the per
tile lookup-and-unwrap never hits the none branch. -/
theorem generate_chunk_total (world_seed : List Nat) (chunk_pos : ChunkPos) :
    (generate_chunk world_seed chunk_pos).isSome = true := by
  unfold generate_chunk
  apply traverseOption_isSome
  intro row hrow
  apply traverseOption_isSome
  intro v hv
  have hb := drawRows_mem_bound 32 _ row hrow v hv
  exact rangemapGet_weight_isSome v hb.1 hb.2

/-- an arbitrary interleaving of generator calls: each call is a seed and a
chunk coordinate, and the outputs are produced in call order. -/
def generateSequence (calls : List (List Nat × ChunkPos)) : List (Option Grid) :=
  calls.map (fun c => generate_chunk c.1 c.2)

/-- C6. generate_chunk is deterministic: in any sequence of calls, two calls
with the same seed and chunk coordinate, at any two positions and with any
other calls interleaved, produce identical grids. -/
theorem generate_chunk_deterministic (calls : List (List Nat × ChunkPos)) (i j : Nat)
    (hi : i < calls.length) (hj : j < calls.length)
    (hij : calls.getD i ([], (0, 0)) = calls.getD j ([], (0, 0))) :
    (generateSequence calls).getD i none = (generateSequence calls).getD j none := by
  unfold generateSequence
  rw [List.getD_eq_getElem?_getD, List.getD_eq_getElem?_getD, List.getElem?_map,
    List.getElem?_map, List.getElem?_eq_getElem hi, List.getElem?_eq_getElem hj]
  rw [List.getD_eq_getElem?_getD, List.getD_eq_getElem?_getD,
    List.getElem?_eq_getElem hi, List.getElem?_eq_getElem hj] at hij
  simp only [Option.getD_some] at hij
  simp [hij]

/-- witness for C6: the same seed and coordinate requested at positions 0 and
2 of a three call sequence, with a different call between them, yields the
same grid. -/
theorem generate_chunk_deterministic_witness :
    0 < (([(List.replicate 32 0, ((0 : Int), (0 : Int))),
          (List.replicate 32 1, ((5 : Int), (-3 : Int))),
          (List.replicate 32 0, ((0 : Int), (0 : Int)))] :
            List (List Nat × ChunkPos)).length) ∧
    (generateSequence
        [(List.replicate 32 0, ((0 : Int), (0 : Int))),
         (List.replicate 32 1, ((5 : Int), (-3 : Int))),
         (List.replicate 32 0, ((0 : Int), (0 : Int)))]).getD 0 none =
      (generateSequence
        [(List.replicate 32 0, ((0 : Int), (0 : Int))),
         (List.replicate 32 1, ((5 : Int), (-3 : Int))),
         (List.replicate 32 0, ((0 : Int), (0 : Int)))]).getD 2 none :=
  ⟨by decide,
   generate_chunk_deterministic _ 0 2 (by decide) (by decide) (by decide)⟩

/-- C7. For a 32 byte world seed, the per chunk seed equals the world seed
with exactly its final 8 bytes overwritten: bytes 24 to 27 carry the
little-endian encoding of chunk x, bytes 28 to 31 the little-endian encoding
of chunk y, and the first 24 bytes are unchanged. -/
theorem chunk_seed_suffix (world_seed : List Nat) (chunk_pos : ChunkPos)
    (h : world_seed.length = 32) :
    (chunkSeedBytes world_seed chunk_pos).length = 32 ∧
    (∀ i, i < 24 →
      (chunkSeedBytes world_seed chunk_pos).getD i 0 = world_seed.getD i 0) ∧
    (∀ j, j < 4 →
      (chunkSeedBytes world_seed chunk_pos).getD (24 + j) 0 =
        (i32ToLeBytes chunk_pos.1).getD j 0) ∧
    (∀ j, j < 4 →
      (chunkSeedBytes world_seed chunk_pos).getD (28 + j) 0 =
        (i32ToLeBytes chunk_pos.2).getD j 0) := by
  have hlen : (world_seed.take 24).length = 24 := by
    rw [List.length_take]; omega
  have hlen1 : (i32ToLeBytes chunk_pos.1).length = 4 := rfl
  refine ⟨?_, ?_, ?_, ?_⟩
  · simp only [chunkSeedBytes, List.length_append, hlen, hlen1]
    rfl
  · intro i hi
    unfold chunkSeedBytes
    rw [List.append_assoc, List.getD_append _ _ 0 i (by omega)]
    rw [List.getD_eq_getElem?_getD, List.getD_eq_getElem?_getD]
    rw [List.getElem?_take]
    rw [if_pos hi]
  · intro j hj
    unfold chunkSeedBytes
    rw [List.append_assoc, List.getD_append_right _ _ 0 (24 + j) (by omega)]
    rw [hlen]
    have : 24 + j - 24 = j := by omega
    rw [this]
    rw [List.getD_append _ _ 0 j (by omega)]
  · intro j hj
    unfold chunkSeedBytes
    rw [List.append_assoc, List.getD_append_right _ _ 0 (28 + j) (by omega)]
    rw [hlen]
    have h4 : 28 + j - 24 = 4 + j := by omega
    rw [h4]
    rw [List.getD_append_right _ _ 0 (4 + j) (by omega)]
    rw [hlen1]
    have : 4 + j - 4 = j := by omega
    rw [this]

/-- witness for C7: the all-zero 32 byte seed with chunk coordinate (1, -2)
satisfies the length hypothesis, and the suffix bytes encode 1 and -2. -/
theorem chunk_seed_suffix_witness :
    (List.replicate 32 0).length = 32 ∧
    (chunkSeedBytes (List.replicate 32 0) ((1 : Int), (-2 : Int))).length = 32 ∧
    (∀ i, i < 24 →
      (chunkSeedBytes (List.replicate 32 0) ((1 : Int), (-2 : Int))).getD i 0 =
        (List.replicate 32 0).getD i 0) ∧
    (∀ j, j < 4 →
      (chunkSeedBytes (List.replicate 32 0) ((1 : Int), (-2 : Int))).getD (24 + j) 0 =
        (i32ToLeBytes 1).getD j 0) ∧
    (∀ j, j < 4 →
      (chunkSeedBytes (List.replicate 32 0) ((1 : Int), (-2 : Int))).getD (28 + j) 0 =
        (i32ToLeBytes (-2)).getD j 0) :=
  ⟨by decide, chunk_seed_suffix (List.replicate 32 0) ((1 : Int), (-2 : Int)) (by decide)⟩

/-!
State model of the chunk management systems. LoadedChunks,
LoadedVisibleChunks and GeneratedChunks are resources; chunk entities
(tilemap entity plus its tile entities) are records. HashSet insertions are
guarded by the contains checks of the source, so they are modelled by cons;
HashSet.remove by List.erase. The Map entity the systems attach chunks to is
presentation-only and always present after startup, so it is not tracked.
-/

/-- a tile entity of spawn_chunk: its TilePos, its TileVisibility component
and its TileKind component. -/
abbrev TileEntity := (Nat × Nat) × (TileVisibility × TileKind)

/-- a chunk entity: the Chunk marker position, the is_visible flag of the
tilemap Visibility bundle, and the spawned tile entities. -/
structure ChunkEntity where
  pos : ChunkPos
  entityVisible : Bool
  tiles : List TileEntity
deriving DecidableEq

/-- chunk_data[x][y] with the out-of-range default never taken on a real
32 x 32 grid. -/
def gridAt (chunk_data : Grid) (x y : Nat) : TileKind :=
  (chunk_data.getD x []).getD y TileKind.Empty

/-- spawn_chunk of chunk_management.rs lines 126 to 178: spawns one tile
entity per local coordinate, each carrying TileVisibility.Visible (the TODO
of line 151) and the TileKind from chunk_data, and the tilemap entity with
the visibility flag passed by the caller. -/
def spawn_chunk (pos : ChunkPos) (visible : Bool) (chunk_data : Grid) : ChunkEntity :=
  { pos := pos,
    entityVisible := visible,
    tiles := (List.range 32).flatMap (fun x =>
      (List.range 32).map (fun y =>
        (((x, y), (TileVisibility.Visible, gridAt chunk_data x y)) : TileEntity))) }

/-- the combined resource state the systems read and write. -/
structure GameState where
  loaded : List ChunkPos
  visible : List ChunkPos
  generated : List (ChunkPos × Grid)
  chunks : List ChunkEntity
deriving DecidableEq

/-- lookup in the GeneratedChunks map. -/
def lookupGrid : List (ChunkPos × Grid) → ChunkPos → Option Grid
  | [], _ => none
  | (k, g) :: rest, c => if k = c then some g else lookupGrid rest c

/-- generated_chunks.chunks.entry(pos).or_insert_with(generate_chunk ..):
return the stored grid, generating and storing it on a miss. -/
def getOrGenerate (world_seed : List Nat) (gen : List (ChunkPos × Grid)) (pos : ChunkPos) :
    Grid × List (ChunkPos × Grid) :=
  match lookupGrid gen pos with
  | some g => (g, gen)
  | none => (generate_chunkD world_seed pos, (pos, generate_chunkD world_seed pos) :: gen)

/-- the shared loop body of the three load systems: if the chunk is not in
the loaded set, fetch or generate its grid, spawn the chunk entity and record
it loaded; then, for the player and camera systems (markVisible), record it
in the visible set if absent. -/
def tryLoadChunk (world_seed : List Nat) (markVisible entityVisible : Bool)
    (pos : ChunkPos) (st : GameState) : GameState :=
  let st1 :=
    if pos ∈ st.loaded then st
    else
      let res := getOrGenerate world_seed st.generated pos
      { st with
        generated := res.2,
        chunks := st.chunks ++ [spawn_chunk pos entityVisible res.1],
        loaded := pos :: st.loaded }
  if markVisible && !(decide (pos ∈ st1.visible)) then
    { st1 with visible := pos :: st1.visible }
  else st1

/-- the list of integers of a Rust inclusive range a..=b. -/
def rangeClosed (a b : Int) : List Int :=
  (List.range (b + 1 - a).toNat).map (fun (i : Nat) => a + (i : Int))

/-- the nested x and y loops of the load systems: all chunk coordinates of
the Chebyshev box of the given radius around a center, x-major. -/
def boxCoords (center : ChunkPos) (radius : Int) : List ChunkPos :=
  (rangeClosed (center.1 - radius) (center.1 + radius)).flatMap (fun x =>
    (rangeClosed (center.2 - radius) (center.2 + radius)).map (fun y => ((x, y) : ChunkPos)))

/-- processing of a list of box coordinates in loop order. -/
def processCoords (world_seed : List Nat) (markVisible entityVisible : Bool)
    (coords : List ChunkPos) (st : GameState) : GameState :=
  coords.foldl (fun s p => tryLoadChunk world_seed markVisible entityVisible p s) st

/-- load_chunks_player of chunk_management.rs lines 180 to 222: for each
player vehicle, load the box of radius 3 around its chunk, marking visible,
spawning visible chunk entities. -/
def load_chunks_player (world_seed : List Nat) (players : List RowEvenPos)
    (st : GameState) : GameState :=
  players.foldl
    (fun s p =>
      processCoords world_seed true true
        (boxCoords (chunk_and_local_from_global p).1 PLAYER_CHUNK_LOAD_DISTANCE) s)
    st

/-- load_chunks_camera of chunk_management.rs lines 224 to 265: camera.single()
is modelled by the optional camera chunk position; none makes the system fail
(bevy Query.single panics when no camera exists). -/
def load_chunks_camera (world_seed : List Nat) (camera : Option ChunkPos)
    (st : GameState) : Option GameState :=
  match camera with
  | none => none
  | some cam =>
    some (processCoords world_seed true true (boxCoords cam CAMERA_CHUNK_LOAD_DISTANCE) st)

/-- load_chunks_npc of chunk_management.rs lines 267 to 305: box of radius 1
around each NPC, chunk entities spawned invisible, and no visible-set
bookkeeping. -/
def load_chunks_npc (world_seed : List Nat) (npcs : List RowEvenPos)
    (st : GameState) : GameState :=
  npcs.foldl
    (fun s p =>
      processCoords world_seed false false
        (boxCoords (chunk_and_local_from_global p).1 NPC_CHUNK_LOAD_DISTANCE) s)
    st

/-- Iterator.any of a Rust consuming iterator: the elements are consumed up
to and including the first match, and the unconsumed remainder is returned
with the result. -/
def anyConsume (p : α → Bool) : List α → Bool × List α
  | [] => (false, [])
  | a :: rest => if p a then (true, rest) else anyConsume p rest

/-- the body of the chunk_unload loop for one chunk entity,
chunk_management.rs lines 316 to 345. The player iterator is created once
per chunk and consumed by the first any call; the second if re-uses the
partially consumed remainder, exactly as the source does. -/
def unloadStep (playerChunks : List ChunkPos) (cam : ChunkPos) (npcChunks : List ChunkPos)
    (e : ChunkEntity) (st : GameState) : GameState :=
  let r1 := anyConsume (fun p => is_chunk_in_radius p e.pos PLAYER_CHUNK_UNLOAD_DISTANCE)
    playerChunks
  let st1 :=
    if !(r1.1 || is_chunk_in_radius cam e.pos CAMERA_CHUNK_UNLOAD_DISTANCE) then
      { st with visible := st.visible.erase e.pos }
    else st
  let r2 := anyConsume (fun p => is_chunk_in_radius p e.pos PLAYER_CHUNK_UNLOAD_DISTANCE) r1.2
  if !(r2.1 || is_chunk_in_radius cam e.pos CAMERA_CHUNK_UNLOAD_DISTANCE ||
      npcChunks.any (fun p => is_chunk_in_radius p e.pos NPC_CHUNK_UNLOAD_DISTANCE)) then
    { st1 with loaded := st1.loaded.erase e.pos, chunks := st1.chunks.erase e }
  else st1

/-- the loop of chunk_unload over the snapshot of chunk entities;
camera.single() is evaluated inside the loop, so a missing camera only fails
when at least one chunk entity exists. -/
def chunkUnloadLoop (playerChunks : List ChunkPos) (camera : Option ChunkPos)
    (npcChunks : List ChunkPos) : List ChunkEntity → GameState → Option GameState
  | [], st => some st
  | e :: rest, st =>
    match camera with
    | none => none
    | some cam =>
      chunkUnloadLoop playerChunks camera npcChunks rest
        (unloadStep playerChunks cam npcChunks e st)

/-- chunk_unload of chunk_management.rs lines 307 to 346. -/
def chunk_unload (players : List RowEvenPos) (camera : Option ChunkPos)
    (npcs : List RowEvenPos) (st : GameState) : Option GameState :=
  chunkUnloadLoop (players.map (fun p => (chunk_and_local_from_global p).1)) camera
    (npcs.map (fun p => (chunk_and_local_from_global p).1)) st.chunks st

/-!
Characterization of the load loop. These lemmas are proved once on
processCoords and instantiated for the three load systems.
-/

/-- the non-visible fields of tryLoadChunk: unchanged when the chunk is
already loaded, otherwise the chunk is recorded, its grid fetched or
generated, and its entity appended. -/
theorem tryLoadChunk_fields (world_seed : List Nat) (markVisible entityVisible : Bool)
    (pos : ChunkPos) (st : GameState) :
    ((tryLoadChunk world_seed markVisible entityVisible pos st).loaded =
        (if pos ∈ st.loaded then st.loaded else pos :: st.loaded)) ∧
    ((tryLoadChunk world_seed markVisible entityVisible pos st).generated =
        (if pos ∈ st.loaded then st.generated else (getOrGenerate world_seed st.generated pos).2)) ∧
    ((tryLoadChunk world_seed markVisible entityVisible pos st).chunks =
        (if pos ∈ st.loaded then st.chunks
         else st.chunks ++
           [spawn_chunk pos entityVisible (getOrGenerate world_seed st.generated pos).1])) := by
  by_cases h : pos ∈ st.loaded
  · simp only [tryLoadChunk, if_pos h]
    split <;> simp
  · simp only [tryLoadChunk, if_neg h]
    split <;> simp

/-- processing an empty coordinate list does nothing. -/
theorem processCoords_nil (world_seed : List Nat) (markVisible entityVisible : Bool)
    (st : GameState) :
    processCoords world_seed markVisible entityVisible [] st = st := rfl

/-- processing a cons: one loop body application, then the rest. -/
theorem processCoords_cons (world_seed : List Nat) (markVisible entityVisible : Bool)
    (p : ChunkPos) (rest : List ChunkPos) (st : GameState) :
    processCoords world_seed markVisible entityVisible (p :: rest) st =
      processCoords world_seed markVisible entityVisible rest
        (tryLoadChunk world_seed markVisible entityVisible p st) := rfl

/-- membership in the loaded set after processing a coordinate list. -/
theorem processCoords_loaded (world_seed : List Nat) (markVisible entityVisible : Bool) :
    ∀ (coords : List ChunkPos) (st : GameState) (c : ChunkPos),
      (c ∈ (processCoords world_seed markVisible entityVisible coords st).loaded ↔
        c ∈ st.loaded ∨ c ∈ coords) := by
  intro coords
  induction coords with
  | nil => intro st c; simp [processCoords]
  | cons p rest ih =>
    intro st c
    have hstep := (tryLoadChunk_fields world_seed markVisible entityVisible p st).1
    rw [processCoords_cons]
    rw [ih]
    rw [hstep]
    by_cases h : p ∈ st.loaded
    · simp only [if_pos h, List.mem_cons]
      constructor
      · rintro (hc | hc)
        · exact Or.inl hc
        · exact Or.inr (Or.inr hc)
      · rintro (hc | hc | hc)
        · exact Or.inl hc
        · subst hc; exact Or.inl h
        · exact Or.inr hc
    · simp only [if_neg h, List.mem_cons]
      tauto

/-- after getOrGenerate, the requested coordinate maps to the returned
grid. -/
theorem getOrGenerate_lookup_self (world_seed : List Nat) (gen : List (ChunkPos × Grid))
    (pos : ChunkPos) :
    lookupGrid (getOrGenerate world_seed gen pos).2 pos =
      some (getOrGenerate world_seed gen pos).1 := by
  unfold getOrGenerate
  rcases h : lookupGrid gen pos with _ | g
  · simp [lookupGrid]
  · simpa using h

/-- getOrGenerate does not change the mapping of any other coordinate. -/
theorem getOrGenerate_lookup_other (world_seed : List Nat) (gen : List (ChunkPos × Grid))
    (pos c : ChunkPos) (h : c ≠ pos) :
    lookupGrid (getOrGenerate world_seed gen pos).2 c = lookupGrid gen c := by
  unfold getOrGenerate
  rcases hg : lookupGrid gen pos with _ | g
  · simp only
    rw [lookupGrid]
    rw [if_neg (by intro hc; exact h hc.symm)]
  · simp

/-- on a cache hit getOrGenerate returns the stored grid and leaves the map
unchanged. -/
theorem getOrGenerate_hit (world_seed : List Nat) (gen : List (ChunkPos × Grid))
    (pos : ChunkPos) (g : Grid) (h : lookupGrid gen pos = some g) :
    getOrGenerate world_seed gen pos = (g, gen) := by
  unfold getOrGenerate
  rw [h]

/-- on a cache miss getOrGenerate calls the generator and stores its
output. -/
theorem getOrGenerate_miss (world_seed : List Nat) (gen : List (ChunkPos × Grid))
    (pos : ChunkPos) (h : lookupGrid gen pos = none) :
    getOrGenerate world_seed gen pos =
      (generate_chunkD world_seed pos, (pos, generate_chunkD world_seed pos) :: gen) := by
  unfold getOrGenerate
  rw [h]

/-- a grid stored in the GeneratedChunks map is still stored, unchanged,
after processing any coordinate list. -/
theorem processCoords_generated_mono (world_seed : List Nat)
    (markVisible entityVisible : Bool) :
    ∀ (coords : List ChunkPos) (st : GameState) (c : ChunkPos) (g : Grid),
      lookupGrid st.generated c = some g →
      lookupGrid (processCoords world_seed markVisible entityVisible coords st).generated c =
        some g := by
  intro coords
  induction coords with
  | nil => intro st c g h; simpa [processCoords] using h
  | cons p rest ih =>
    intro st c g h
    rw [processCoords_cons]
    apply ih
    rw [(tryLoadChunk_fields world_seed markVisible entityVisible p st).2.1]
    by_cases hp : p ∈ st.loaded
    · rwa [if_pos hp]
    · rw [if_neg hp]
      by_cases hc : c = p
      · subst hc
        rw [getOrGenerate_hit world_seed st.generated c g h]
        exact h
      · rwa [getOrGenerate_lookup_other world_seed st.generated p c hc]

/-- after processing, the mapping of any coordinate is either what it was
before or the output of the generator for that coordinate. -/
theorem processCoords_generated_cases (world_seed : List Nat)
    (markVisible entityVisible : Bool) :
    ∀ (coords : List ChunkPos) (st : GameState) (c : ChunkPos),
      lookupGrid (processCoords world_seed markVisible entityVisible coords st).generated c =
          lookupGrid st.generated c ∨
        lookupGrid (processCoords world_seed markVisible entityVisible coords st).generated c =
          some (generate_chunkD world_seed c) := by
  intro coords
  induction coords with
  | nil => intro st c; exact Or.inl rfl
  | cons p rest ih =>
    intro st c
    rw [processCoords_cons]
    rcases ih (tryLoadChunk world_seed markVisible entityVisible p st) c with hc | hc
    · rw [hc]
      rw [(tryLoadChunk_fields world_seed markVisible entityVisible p st).2.1]
      by_cases hp : p ∈ st.loaded
      · rw [if_pos hp]; exact Or.inl rfl
      · rw [if_neg hp]
        by_cases hcp : c = p
        · subst hcp
          rcases hg : lookupGrid st.generated c with _ | g
          · rw [getOrGenerate_miss world_seed st.generated c hg]
            right
            simp [lookupGrid]
          · rw [getOrGenerate_hit world_seed st.generated c g hg]
            exact Or.inl hg
        · rw [getOrGenerate_lookup_other world_seed st.generated p c hcp]
          exact Or.inl rfl
    · exact Or.inr hc

/-- a coordinate that is in the list, not yet loaded and not yet generated
ends up mapped to the generator output. -/
theorem processCoords_generated_store (world_seed : List Nat)
    (markVisible entityVisible : Bool) :
    ∀ (coords : List ChunkPos) (st : GameState) (c : ChunkPos),
      c ∈ coords → c ∉ st.loaded → lookupGrid st.generated c = none →
      lookupGrid (processCoords world_seed markVisible entityVisible coords st).generated c =
        some (generate_chunkD world_seed c) := by
  intro coords
  induction coords with
  | nil => intro st c hc; simp at hc
  | cons p rest ih =>
    intro st c hc hnl hmiss
    rw [processCoords_cons]
    by_cases hcp : c = p
    · subst hcp
      apply processCoords_generated_mono
      rw [(tryLoadChunk_fields world_seed markVisible entityVisible c st).2.1]
      rw [if_neg hnl]
      rw [getOrGenerate_miss world_seed st.generated c hmiss]
      simp [lookupGrid]
    · have hcrest : c ∈ rest := by
        rcases List.mem_cons.mp hc with h | h
        · exact absurd h hcp
        · exact h
      apply ih
      · exact hcrest
      · rw [(tryLoadChunk_fields world_seed markVisible entityVisible p st).1]
        by_cases hp : p ∈ st.loaded
        · rwa [if_pos hp]
        · rw [if_neg hp]
          intro hmem
          rcases List.mem_cons.mp hmem with h | h
          · exact hcp h
          · exact hnl h
      · rw [(tryLoadChunk_fields world_seed markVisible entityVisible p st).2.1]
        by_cases hp : p ∈ st.loaded
        · rwa [if_pos hp]
        · rw [if_neg hp]
          rwa [getOrGenerate_lookup_other world_seed st.generated p c hcp]

/-- the position recorded in a spawned chunk entity. -/
theorem spawn_chunk_pos (pos : ChunkPos) (visible : Bool) (chunk_data : Grid) :
    (spawn_chunk pos visible chunk_data).pos = pos := rfl

/-- decomposition of the chunk entities after processing a coordinate list:
exactly the coordinates of the list that were not already loaded get one new
entity each, appended in order, each spawned with the entity visibility of
the pass and a grid that the final GeneratedChunks map stores for its
coordinate. -/
theorem processCoords_chunks (world_seed : List Nat) (markVisible entityVisible : Bool) :
    ∀ (coords : List ChunkPos) (st : GameState),
      ∃ L : List ChunkEntity,
        (processCoords world_seed markVisible entityVisible coords st).chunks =
          st.chunks ++ L ∧
        (∀ c : ChunkPos, c ∈ L.map ChunkEntity.pos ↔ (c ∈ coords ∧ c ∉ st.loaded)) ∧
        (L.map ChunkEntity.pos).Nodup ∧
        (∀ e ∈ L, ∃ g : Grid, e = spawn_chunk e.pos entityVisible g ∧
          lookupGrid
            (processCoords world_seed markVisible entityVisible coords st).generated
            e.pos = some g) := by
  intro coords
  induction coords with
  | nil =>
    intro st
    refine ⟨[], by simp [processCoords], by simp, by simp, by simp⟩
  | cons p rest ih =>
    intro st
    have hstep := tryLoadChunk_fields world_seed markVisible entityVisible p st
    by_cases hp : p ∈ st.loaded
    · obtain ⟨L, hchunks, hmem, hnd, hsp⟩ :=
        ih (tryLoadChunk world_seed markVisible entityVisible p st)
      rw [hstep.1, if_pos hp] at hmem
      rw [hstep.2.2, if_pos hp] at hchunks
      refine ⟨L, ?_, ?_, hnd, ?_⟩
      · rw [processCoords_cons]
        exact hchunks
      · intro c
        rw [hmem]
        constructor
        · rintro ⟨hc1, hc2⟩
          exact ⟨List.mem_cons_of_mem p hc1, hc2⟩
        · rintro ⟨hc1, hc2⟩
          rcases List.mem_cons.mp hc1 with h | h
          · subst h; exact absurd hp hc2
          · exact ⟨h, hc2⟩
      · rw [processCoords_cons]
        exact hsp
    · obtain ⟨L, hchunks, hmem, hnd, hsp⟩ :=
        ih (tryLoadChunk world_seed markVisible entityVisible p st)
      rw [hstep.1, if_neg hp] at hmem
      rw [hstep.2.2, if_neg hp] at hchunks
      have hlook1 :
          lookupGrid (tryLoadChunk world_seed markVisible entityVisible p st).generated p =
            some (getOrGenerate world_seed st.generated p).1 := by
        rw [hstep.2.1, if_neg hp]
        exact getOrGenerate_lookup_self world_seed st.generated p
      refine ⟨spawn_chunk p entityVisible (getOrGenerate world_seed st.generated p).1 :: L,
        ?_, ?_, ?_, ?_⟩
      · rw [processCoords_cons, hchunks, List.append_assoc]
        rfl
      · intro c
        simp only [List.map_cons, spawn_chunk_pos, List.mem_cons]
        rw [hmem]
        by_cases hcp : c = p
        · subst hcp
          simp [hp]
        · simp only [hcp, false_or, List.mem_cons]
      · simp only [List.map_cons, spawn_chunk_pos, List.nodup_cons]
        refine ⟨?_, hnd⟩
        intro hpin
        rcases (hmem p).mp hpin with ⟨_, hc2⟩
        exact hc2 (List.mem_cons_self p st.loaded)
      · intro e he
        rcases List.mem_cons.mp he with h | h
        · subst h
          refine ⟨(getOrGenerate world_seed st.generated p).1, ?_, ?_⟩
          · rw [spawn_chunk_pos]
          · rw [processCoords_cons, spawn_chunk_pos]
            exact processCoords_generated_mono world_seed markVisible entityVisible rest
              (tryLoadChunk world_seed markVisible entityVisible p st) p
              (getOrGenerate world_seed st.generated p).1 hlook1
        · rw [processCoords_cons]
          exact hsp e h

/-- processing a concatenation is sequential processing. -/
theorem processCoords_append (world_seed : List Nat) (markVisible entityVisible : Bool)
    (l1 l2 : List ChunkPos) (st : GameState) :
    processCoords world_seed markVisible entityVisible (l1 ++ l2) st =
      processCoords world_seed markVisible entityVisible l2
        (processCoords world_seed markVisible entityVisible l1 st) := by
  simp [processCoords, List.foldl_append]

/-- the player system is the processing of the concatenated boxes of all
player vehicles. -/
theorem load_chunks_player_eq (world_seed : List Nat) :
    ∀ (players : List RowEvenPos) (st : GameState),
      load_chunks_player world_seed players st =
        processCoords world_seed true true
          (players.flatMap (fun p =>
            boxCoords (chunk_and_local_from_global p).1 PLAYER_CHUNK_LOAD_DISTANCE)) st := by
  intro players
  induction players with
  | nil => intro st; rfl
  | cons p rest ih =>
    intro st
    simp only [load_chunks_player, List.foldl_cons, List.flatMap_cons]
    rw [processCoords_append]
    exact ih _

/-- the NPC system is the processing of the concatenated boxes of all
NPCs. -/
theorem load_chunks_npc_eq (world_seed : List Nat) :
    ∀ (npcs : List RowEvenPos) (st : GameState),
      load_chunks_npc world_seed npcs st =
        processCoords world_seed false false
          (npcs.flatMap (fun p =>
            boxCoords (chunk_and_local_from_global p).1 NPC_CHUNK_LOAD_DISTANCE)) st := by
  intro npcs
  induction npcs with
  | nil => intro st; rfl
  | cons p rest ih =>
    intro st
    simp only [load_chunks_npc, List.foldl_cons, List.flatMap_cons]
    rw [processCoords_append]
    exact ih _

/-- membership in a Rust inclusive integer range. -/
theorem mem_rangeClosed (a b x : Int) : x ∈ rangeClosed a b ↔ a ≤ x ∧ x ≤ b := by
  unfold rangeClosed
  simp only [List.mem_map, List.mem_range]
  constructor
  · rintro ⟨i, hi, rfl⟩
    omega
  · rintro ⟨h1, h2⟩
    refine ⟨(x - a).toNat, by omega, by omega⟩

/-- membership in a Chebyshev box is exactly the is_chunk_in_radius test. -/
theorem mem_boxCoords (center : ChunkPos) (radius : Int) (c : ChunkPos) :
    c ∈ boxCoords center radius ↔ is_chunk_in_radius center c radius = true := by
  unfold boxCoords is_chunk_in_radius
  simp only [List.mem_flatMap, List.mem_map, mem_rangeClosed, Bool.and_eq_true,
    decide_eq_true_eq]
  constructor
  · rintro ⟨x, hx, y, hy, rfl⟩
    exact ⟨⟨hx.1, hx.2⟩, ⟨hy.1, hy.2⟩⟩
  · rintro ⟨⟨h1, h2⟩, ⟨h3, h4⟩⟩
    exact ⟨c.1, ⟨h1, h2⟩, c.2, ⟨⟨h3, h4⟩, rfl⟩⟩

/-- membership in the concatenated boxes of a list of observers. -/
theorem mem_flatMap_box (obs : List RowEvenPos) (r : Int) (c : ChunkPos) :
    (c ∈ obs.flatMap (fun p => boxCoords (chunk_and_local_from_global p).1 r) ↔
      ∃ p ∈ obs, is_chunk_in_radius (chunk_and_local_from_global p).1 c r = true) := by
  simp only [List.mem_flatMap, mem_boxCoords]


set_option maxHeartbeats 1000000 in
/-- C9. One tick of loading (player pass, then camera pass, then NPC pass,
all sharing one loaded-set): afterwards a chunk is loaded exactly when it was
loaded before or lies in the Chebyshev box of the class load radius of some
observer, and the tick materializes exactly one new chunk entity for each
not-already-loaded chunk covered by some observer box and none for any other
coordinate. -/
theorem load_pass_materializes_box
    (world_seed : List Nat) (players : List RowEvenPos) (cpos : ChunkPos)
    (npcs : List RowEvenPos) (st st2 : GameState)
    (hcam : load_chunks_camera world_seed (some cpos)
      (load_chunks_player world_seed players st) = some st2) :
    (∀ c : ChunkPos,
      (c ∈ (load_chunks_npc world_seed npcs st2).loaded ↔
        (c ∈ st.loaded ∨
         ((∃ p ∈ players, is_chunk_in_radius (chunk_and_local_from_global p).1 c
             PLAYER_CHUNK_LOAD_DISTANCE = true) ∨
          is_chunk_in_radius cpos c CAMERA_CHUNK_LOAD_DISTANCE = true ∨
          (∃ p ∈ npcs, is_chunk_in_radius (chunk_and_local_from_global p).1 c
             NPC_CHUNK_LOAD_DISTANCE = true))))) ∧
    ∃ L : List ChunkEntity,
      (load_chunks_npc world_seed npcs st2).chunks = st.chunks ++ L ∧
      (L.map ChunkEntity.pos).Nodup ∧
      (∀ c : ChunkPos,
        (c ∈ L.map ChunkEntity.pos ↔
          (c ∉ st.loaded ∧
           ((∃ p ∈ players, is_chunk_in_radius (chunk_and_local_from_global p).1 c
               PLAYER_CHUNK_LOAD_DISTANCE = true) ∨
            is_chunk_in_radius cpos c CAMERA_CHUNK_LOAD_DISTANCE = true ∨
            (∃ p ∈ npcs, is_chunk_in_radius (chunk_and_local_from_global p).1 c
               NPC_CHUNK_LOAD_DISTANCE = true))))) := by
  have hst2 : st2 =
      processCoords world_seed true true (boxCoords cpos CAMERA_CHUNK_LOAD_DISTANCE)
        (load_chunks_player world_seed players st) := by
    have h := hcam
    unfold load_chunks_camera at h
    exact (Option.some.inj h).symm
  subst hst2
  rw [load_chunks_player_eq, load_chunks_npc_eq]
  have hload1 := processCoords_loaded world_seed true true
    (players.flatMap (fun p =>
      boxCoords (chunk_and_local_from_global p).1 PLAYER_CHUNK_LOAD_DISTANCE)) st
  have hload2 := processCoords_loaded world_seed true true
    (boxCoords cpos CAMERA_CHUNK_LOAD_DISTANCE)
    (processCoords world_seed true true
      (players.flatMap (fun p =>
        boxCoords (chunk_and_local_from_global p).1 PLAYER_CHUNK_LOAD_DISTANCE)) st)
  have hload3 := processCoords_loaded world_seed false false
    (npcs.flatMap (fun p =>
      boxCoords (chunk_and_local_from_global p).1 NPC_CHUNK_LOAD_DISTANCE))
    (processCoords world_seed true true
      (boxCoords cpos CAMERA_CHUNK_LOAD_DISTANCE)
      (processCoords world_seed true true
        (players.flatMap (fun p =>
          boxCoords (chunk_and_local_from_global p).1 PLAYER_CHUNK_LOAD_DISTANCE)) st))
  constructor
  · intro c
    rw [hload3 c, hload2 c, hload1 c,
      mem_flatMap_box, mem_boxCoords, mem_flatMap_box]
    simp only [or_assoc]
  · obtain ⟨L1, hc1, hm1, hn1, _⟩ := processCoords_chunks world_seed true true
      (players.flatMap (fun p =>
        boxCoords (chunk_and_local_from_global p).1 PLAYER_CHUNK_LOAD_DISTANCE)) st
    obtain ⟨L2, hc2, hm2, hn2, _⟩ := processCoords_chunks world_seed true true
      (boxCoords cpos CAMERA_CHUNK_LOAD_DISTANCE)
      (processCoords world_seed true true
        (players.flatMap (fun p =>
          boxCoords (chunk_and_local_from_global p).1 PLAYER_CHUNK_LOAD_DISTANCE)) st)
    obtain ⟨L3, hc3, hm3, hn3, _⟩ := processCoords_chunks world_seed false false
      (npcs.flatMap (fun p =>
        boxCoords (chunk_and_local_from_global p).1 NPC_CHUNK_LOAD_DISTANCE))
      (processCoords world_seed true true
        (boxCoords cpos CAMERA_CHUNK_LOAD_DISTANCE)
        (processCoords world_seed true true
          (players.flatMap (fun p =>
            boxCoords (chunk_and_local_from_global p).1 PLAYER_CHUNK_LOAD_DISTANCE)) st))
    refine ⟨L1 ++ L2 ++ L3, ?_, ?_, ?_⟩
    · rw [hc3, hc2, hc1, List.append_assoc, List.append_assoc,
        ← List.append_assoc L1 L2 L3]
    · have h12 : ∀ c : ChunkPos, c ∈ L1.map ChunkEntity.pos →
          c ∉ L2.map ChunkEntity.pos := by
        intro c hcl1 hcl2
        rcases (hm2 c).mp hcl2 with ⟨_, hnl⟩
        rcases (hm1 c).mp hcl1 with ⟨hin1, _⟩
        exact hnl ((hload1 c).mpr (Or.inr hin1))
      have h13 : ∀ c : ChunkPos, c ∈ L1.map ChunkEntity.pos →
          c ∉ L3.map ChunkEntity.pos := by
        intro c hcl1 hcl3
        rcases (hm3 c).mp hcl3 with ⟨_, hnl⟩
        rcases (hm1 c).mp hcl1 with ⟨hin1, _⟩
        exact hnl ((hload2 c).mpr (Or.inl ((hload1 c).mpr (Or.inr hin1))))
      have h23 : ∀ c : ChunkPos, c ∈ L2.map ChunkEntity.pos →
          c ∉ L3.map ChunkEntity.pos := by
        intro c hcl2 hcl3
        rcases (hm3 c).mp hcl3 with ⟨_, hnl⟩
        rcases (hm2 c).mp hcl2 with ⟨hin2, _⟩
        exact hnl ((hload2 c).mpr (Or.inr hin2))
      rw [List.map_append, List.map_append]
      rw [List.nodup_append, List.nodup_append]
      refine ⟨⟨hn1, hn2, ?_⟩, hn3, ?_⟩
      · intro c hcl1 hcl2
        exact h12 c hcl1 hcl2
      · intro c hcl12 hcl3
        rcases List.mem_append.mp hcl12 with h | h
        · exact h13 c h hcl3
        · exact h23 c h hcl3
    · intro c
      rw [List.map_append, List.map_append, List.mem_append, List.mem_append,
        hm1 c, hm2 c, hm3 c, hload2 c, hload1 c]
      rw [mem_flatMap_box, mem_boxCoords, mem_flatMap_box]
      generalize (c ∈ st.loaded) = O
      generalize (∃ p ∈ players, is_chunk_in_radius (chunk_and_local_from_global p).1 c
        PLAYER_CHUNK_LOAD_DISTANCE = true) = EP
      generalize (is_chunk_in_radius cpos c CAMERA_CHUNK_LOAD_DISTANCE = true) = EC
      generalize (∃ p ∈ npcs, is_chunk_in_radius (chunk_and_local_from_global p).1 c
        NPC_CHUNK_LOAD_DISTANCE = true) = EN
      tauto

/-- witness for C9: a concrete tick from the empty state with one player
vehicle at tile (7, -9), the camera over chunk (0, 0) and one NPC at tile
(40, 40), discharging the camera-pass hypothesis. -/
theorem load_pass_materializes_box_witness :
    (load_chunks_camera (List.replicate 32 0) (some ((0 : Int), (0 : Int)))
        (load_chunks_player (List.replicate 32 0) [((7 : Int), (-9 : Int))]
          (GameState.mk [] [] [] [])) =
      some (processCoords (List.replicate 32 0) true true
        (boxCoords ((0 : Int), (0 : Int)) CAMERA_CHUNK_LOAD_DISTANCE)
        (load_chunks_player (List.replicate 32 0) [((7 : Int), (-9 : Int))]
          (GameState.mk [] [] [] [])))) ∧
    ((∀ c : ChunkPos,
      (c ∈ (load_chunks_npc (List.replicate 32 0) [((40 : Int), (40 : Int))]
          (processCoords (List.replicate 32 0) true true
            (boxCoords ((0 : Int), (0 : Int)) CAMERA_CHUNK_LOAD_DISTANCE)
            (load_chunks_player (List.replicate 32 0) [((7 : Int), (-9 : Int))]
              (GameState.mk [] [] [] [])))).loaded ↔
        (c ∈ (GameState.mk [] [] [] [] : GameState).loaded ∨
         ((∃ p ∈ [((7 : Int), (-9 : Int))],
             is_chunk_in_radius (chunk_and_local_from_global p).1 c
               PLAYER_CHUNK_LOAD_DISTANCE = true) ∨
          is_chunk_in_radius ((0 : Int), (0 : Int)) c CAMERA_CHUNK_LOAD_DISTANCE = true ∨
          (∃ p ∈ [((40 : Int), (40 : Int))],
             is_chunk_in_radius (chunk_and_local_from_global p).1 c
               NPC_CHUNK_LOAD_DISTANCE = true))))) ∧
    ∃ L : List ChunkEntity,
      (load_chunks_npc (List.replicate 32 0) [((40 : Int), (40 : Int))]
          (processCoords (List.replicate 32 0) true true
            (boxCoords ((0 : Int), (0 : Int)) CAMERA_CHUNK_LOAD_DISTANCE)
            (load_chunks_player (List.replicate 32 0) [((7 : Int), (-9 : Int))]
              (GameState.mk [] [] [] [])))).chunks =
        (GameState.mk [] [] [] [] : GameState).chunks ++ L ∧
      (L.map ChunkEntity.pos).Nodup ∧
      (∀ c : ChunkPos,
        (c ∈ L.map ChunkEntity.pos ↔
          (c ∉ (GameState.mk [] [] [] [] : GameState).loaded ∧
           ((∃ p ∈ [((7 : Int), (-9 : Int))],
               is_chunk_in_radius (chunk_and_local_from_global p).1 c
                 PLAYER_CHUNK_LOAD_DISTANCE = true) ∨
            is_chunk_in_radius ((0 : Int), (0 : Int)) c CAMERA_CHUNK_LOAD_DISTANCE = true ∨
            (∃ p ∈ [((40 : Int), (40 : Int))],
               is_chunk_in_radius (chunk_and_local_from_global p).1 c
                 NPC_CHUNK_LOAD_DISTANCE = true)))))) :=
  ⟨rfl,
   load_pass_materializes_box (List.replicate 32 0) [((7 : Int), (-9 : Int))]
     ((0 : Int), (0 : Int)) [((40 : Int), (40 : Int))] (GameState.mk [] [] [] [])
     (processCoords (List.replicate 32 0) true true
       (boxCoords ((0 : Int), (0 : Int)) CAMERA_CHUNK_LOAD_DISTANCE)
       (load_chunks_player (List.replicate 32 0) [((7 : Int), (-9 : Int))]
         (GameState.mk [] [] [] []))) rfl⟩

/-- every tile entity spawned by spawn_chunk carries the component
TileVisibility.Visible, the hard-coded TODO of chunk_management.rs line
151. -/
theorem spawn_chunk_tiles_all_visible (pos : ChunkPos) (visible : Bool)
    (chunk_data : Grid) (t : TileEntity)
    (ht : t ∈ (spawn_chunk pos visible chunk_data).tiles) :
    t.2.1 = TileVisibility.Visible := by
  simp only [spawn_chunk, List.mem_flatMap, List.mem_map] at ht
  obtain ⟨x, _, y, _, rfl⟩ := ht
  rfl

/-- C2 (code bug record). Every chunk entity materialized by the NPC load
pass has its tilemap entity invisible but every one of its tile entities in
state TileVisibility.Visible, never Unknown or Charted: the spec requires
NPC-loaded chunks to hold only Unknown or Charted tiles. -/
theorem load_chunks_npc_tiles_visible
    (world_seed : List Nat) (npcs : List RowEvenPos) (st : GameState)
    (L : List ChunkEntity)
    (hL : (load_chunks_npc world_seed npcs st).chunks = st.chunks ++ L)
    (e : ChunkEntity) (he : e ∈ L) (t : TileEntity) (ht : t ∈ e.tiles) :
    e.entityVisible = false ∧ t.2.1 = TileVisibility.Visible := by
  rw [load_chunks_npc_eq] at hL
  obtain ⟨L0, hc0, _, _, hsp0⟩ := processCoords_chunks world_seed false false
    (npcs.flatMap (fun p =>
      boxCoords (chunk_and_local_from_global p).1 NPC_CHUNK_LOAD_DISTANCE)) st
  have hLL0 : L = L0 := List.append_cancel_left (hL.symm.trans hc0)
  subst hLL0
  obtain ⟨g, hg, _⟩ := hsp0 e he
  constructor
  · rw [hg]; rfl
  · rw [hg] at ht
    exact spawn_chunk_tiles_all_visible e.pos false g t ht

set_option maxRecDepth 100000 in
/-- witness for C2: one NPC at tile (0, 0) loading from an empty loaded-set
with the nine grids of its box already in the chunk cache; the chunk entity
spawned for chunk (0, 0) has its first tile, and by the theorem every tile,
in state Visible. -/
theorem load_chunks_npc_tiles_visible_witness :
    ((load_chunks_npc (List.replicate 32 0) [((0 : Int), (0 : Int))]
        (GameState.mk [] []
          ((boxCoords ((0 : Int), (0 : Int)) NPC_CHUNK_LOAD_DISTANCE).map
            (fun c => (c, ([] : Grid)))) [])).chunks =
      (GameState.mk [] []
          ((boxCoords ((0 : Int), (0 : Int)) NPC_CHUNK_LOAD_DISTANCE).map
            (fun c => (c, ([] : Grid)))) [] : GameState).chunks ++
        (load_chunks_npc (List.replicate 32 0) [((0 : Int), (0 : Int))]
          (GameState.mk [] []
            ((boxCoords ((0 : Int), (0 : Int)) NPC_CHUNK_LOAD_DISTANCE).map
              (fun c => (c, ([] : Grid)))) [])).chunks) ∧
    spawn_chunk ((0 : Int), (0 : Int)) false ([] : Grid) ∈
      (load_chunks_npc (List.replicate 32 0) [((0 : Int), (0 : Int))]
        (GameState.mk [] []
          ((boxCoords ((0 : Int), (0 : Int)) NPC_CHUNK_LOAD_DISTANCE).map
            (fun c => (c, ([] : Grid)))) [])).chunks ∧
    (((0, 0), (TileVisibility.Visible, TileKind.Empty)) : TileEntity) ∈
      (spawn_chunk ((0 : Int), (0 : Int)) false ([] : Grid)).tiles ∧
    ((spawn_chunk ((0 : Int), (0 : Int)) false ([] : Grid)).entityVisible = false ∧
      ((((0, 0), (TileVisibility.Visible, TileKind.Empty)) : TileEntity)).2.1 =
        TileVisibility.Visible) :=
  ⟨rfl, by decide, by decide,
   load_chunks_npc_tiles_visible (List.replicate 32 0) [((0 : Int), (0 : Int))]
     (GameState.mk [] []
       ((boxCoords ((0 : Int), (0 : Int)) NPC_CHUNK_LOAD_DISTANCE).map
         (fun c => (c, ([] : Grid)))) [])
     (load_chunks_npc (List.replicate 32 0) [((0 : Int), (0 : Int))]
       (GameState.mk [] []
         ((boxCoords ((0 : Int), (0 : Int)) NPC_CHUNK_LOAD_DISTANCE).map
           (fun c => (c, ([] : Grid)))) [])).chunks
     rfl
     (spawn_chunk ((0 : Int), (0 : Int)) false ([] : Grid)) (by decide)
     (((0, 0), (TileVisibility.Visible, TileKind.Empty)) : TileEntity) (by decide)⟩

/-- unloadStep never touches the GeneratedChunks map. -/
theorem unloadStep_generated (playerChunks : List ChunkPos) (cam : ChunkPos)
    (npcChunks : List ChunkPos) (e : ChunkEntity) (st : GameState) :
    (unloadStep playerChunks cam npcChunks e st).generated = st.generated := by
  simp only [unloadStep]
  split <;> split <;> rfl

/-- the chunk_unload loop never touches the GeneratedChunks map. -/
theorem chunkUnloadLoop_generated (pl : List ChunkPos) (camera : Option ChunkPos)
    (np : List ChunkPos) :
    ∀ (es : List ChunkEntity) (st stB : GameState),
      chunkUnloadLoop pl camera np es st = some stB → stB.generated = st.generated := by
  intro es
  induction es with
  | nil =>
    intro st stB h
    simp only [chunkUnloadLoop] at h
    injection h with h
    rw [← h]
  | cons e rest ih =>
    intro st stB h
    cases camera with
    | none => simp [chunkUnloadLoop] at h
    | some cam =>
      simp only [chunkUnloadLoop] at h
      rw [ih _ _ h, unloadStep_generated]

/-- C8. Terrain is generated at most once per coordinate: the first load
request for a not-yet-generated coordinate stores exactly the generator
output in GeneratedChunks and spawns its entity from that grid; chunk_unload
never modifies the map; and any later load pass whose state still stores
that grid keeps it unchanged and spawns from it again, so a reloaded chunk
shows terrain identical to the first materialization. -/
theorem generated_chunks_cached_once
    (world_seed : List Nat) (players : List RowEvenPos) (st : GameState) (c : ChunkPos)
    (hmiss : lookupGrid st.generated c = none)
    (hnew : c ∉ st.loaded)
    (hload : c ∈ (load_chunks_player world_seed players st).loaded) :
    lookupGrid (load_chunks_player world_seed players st).generated c =
      some (generate_chunkD world_seed c) ∧
    (∀ (L : List ChunkEntity) (e : ChunkEntity),
      (load_chunks_player world_seed players st).chunks = st.chunks ++ L →
      e ∈ L → e.pos = c → e = spawn_chunk c true (generate_chunkD world_seed c)) ∧
    (∀ (pl2 : List RowEvenPos) (cam : Option ChunkPos) (npcs : List RowEvenPos)
        (stA stB : GameState), chunk_unload pl2 cam npcs stA = some stB →
      stB.generated = stA.generated) ∧
    (∀ (players2 : List RowEvenPos) (st3 : GameState),
      lookupGrid st3.generated c = some (generate_chunkD world_seed c) →
      (lookupGrid (load_chunks_player world_seed players2 st3).generated c =
        some (generate_chunkD world_seed c) ∧
       ∀ (L : List ChunkEntity) (e : ChunkEntity),
         (load_chunks_player world_seed players2 st3).chunks = st3.chunks ++ L →
         e ∈ L → e.pos = c → e = spawn_chunk c true (generate_chunkD world_seed c))) := by
  rw [load_chunks_player_eq] at hload
  have hcoords : c ∈ players.flatMap (fun p =>
      boxCoords (chunk_and_local_from_global p).1 PLAYER_CHUNK_LOAD_DISTANCE) := by
    rcases (processCoords_loaded world_seed true true _ st c).mp hload with h | h
    · exact absurd h hnew
    · exact h
  have hstore : lookupGrid (load_chunks_player world_seed players st).generated c =
      some (generate_chunkD world_seed c) := by
    rw [load_chunks_player_eq]
    exact processCoords_generated_store world_seed true true _ st c hcoords hnew hmiss
  refine ⟨hstore, ?_, ?_, ?_⟩
  · intro L e hL he hpos
    rw [load_chunks_player_eq] at hL
    obtain ⟨L0, hc0, _, _, hsp0⟩ := processCoords_chunks world_seed true true
      (players.flatMap (fun p =>
        boxCoords (chunk_and_local_from_global p).1 PLAYER_CHUNK_LOAD_DISTANCE)) st
    have hLL0 : L = L0 := List.append_cancel_left (hL.symm.trans hc0)
    subst hLL0
    obtain ⟨g, hg, hlook⟩ := hsp0 e he
    rw [hpos] at hlook
    rw [← load_chunks_player_eq] at hlook
    rw [hstore] at hlook
    injection hlook with hlook
    rw [hg, hpos, hlook]
  · intro pl2 cam npcs stA stB h
    exact chunkUnloadLoop_generated _ cam _ stA.chunks stA stB h
  · intro players2 st3 h3
    have hkeep : lookupGrid (load_chunks_player world_seed players2 st3).generated c =
        some (generate_chunkD world_seed c) := by
      rw [load_chunks_player_eq]
      exact processCoords_generated_mono world_seed true true _ st3 c _ h3
    refine ⟨hkeep, ?_⟩
    intro L e hL he hpos
    rw [load_chunks_player_eq] at hL
    obtain ⟨L0, hc0, _, _, hsp0⟩ := processCoords_chunks world_seed true true
      (players2.flatMap (fun p =>
        boxCoords (chunk_and_local_from_global p).1 PLAYER_CHUNK_LOAD_DISTANCE)) st3
    have hLL0 : L = L0 := List.append_cancel_left (hL.symm.trans hc0)
    subst hLL0
    obtain ⟨g, hg, hlook⟩ := hsp0 e he
    rw [hpos] at hlook
    rw [← load_chunks_player_eq] at hlook
    rw [hkeep] at hlook
    injection hlook with hlook
    rw [hg, hpos, hlook]

set_option maxRecDepth 1000000 in
/-- witness for C8: from the empty state, one player at tile (0, 0) first
loads chunk (0, 0), which is absent from cache and loaded-set before the
pass and loaded after it. -/
theorem generated_chunks_cached_once_witness :
    lookupGrid (GameState.mk [] [] [] [] : GameState).generated ((0 : Int), (0 : Int)) =
      none ∧
    (((0 : Int), (0 : Int)) ∉ (GameState.mk [] [] [] [] : GameState).loaded) ∧
    ((0 : Int), (0 : Int)) ∈
      (load_chunks_player (List.replicate 32 0) [((0 : Int), (0 : Int))]
        (GameState.mk [] [] [] [])).loaded ∧
    (lookupGrid (load_chunks_player (List.replicate 32 0) [((0 : Int), (0 : Int))]
        (GameState.mk [] [] [] [])).generated ((0 : Int), (0 : Int)) =
      some (generate_chunkD (List.replicate 32 0) ((0 : Int), (0 : Int))) ∧
    (∀ (L : List ChunkEntity) (e : ChunkEntity),
      (load_chunks_player (List.replicate 32 0) [((0 : Int), (0 : Int))]
          (GameState.mk [] [] [] [])).chunks =
        (GameState.mk [] [] [] [] : GameState).chunks ++ L →
      e ∈ L → e.pos = ((0 : Int), (0 : Int)) →
      e = spawn_chunk ((0 : Int), (0 : Int)) true
        (generate_chunkD (List.replicate 32 0) ((0 : Int), (0 : Int)))) ∧
    (∀ (pl2 : List RowEvenPos) (cam : Option ChunkPos) (npcs : List RowEvenPos)
        (stA stB : GameState), chunk_unload pl2 cam npcs stA = some stB →
      stB.generated = stA.generated) ∧
    (∀ (players2 : List RowEvenPos) (st3 : GameState),
      lookupGrid st3.generated ((0 : Int), (0 : Int)) =
        some (generate_chunkD (List.replicate 32 0) ((0 : Int), (0 : Int))) →
      (lookupGrid (load_chunks_player (List.replicate 32 0) players2 st3).generated
          ((0 : Int), (0 : Int)) =
        some (generate_chunkD (List.replicate 32 0) ((0 : Int), (0 : Int))) ∧
       ∀ (L : List ChunkEntity) (e : ChunkEntity),
         (load_chunks_player (List.replicate 32 0) players2 st3).chunks =
           st3.chunks ++ L →
         e ∈ L → e.pos = ((0 : Int), (0 : Int)) →
         e = spawn_chunk ((0 : Int), (0 : Int)) true
           (generate_chunkD (List.replicate 32 0) ((0 : Int), (0 : Int)))))) :=
  ⟨rfl, by decide, by decide,
   generated_chunks_cached_once (List.replicate 32 0) [((0 : Int), (0 : Int))]
     (GameState.mk [] [] [] []) ((0 : Int), (0 : Int)) rfl (by decide) (by decide)⟩

set_option maxRecDepth 100000 in
/-- C1 (code bug record). A materialized chunk whose coordinate lies within
the Chebyshev unload radius of the only player vehicle is nevertheless
despawned by chunk_unload when the camera is far away and no NPC is near:
the first if-condition consumes the player iterator, so the second
if-condition sees no player and removes the chunk from the loaded-set and
the world. The spec requires such a chunk never to be despawned. -/
theorem chunk_unload_despawns_player_covered_chunk :
    is_chunk_in_radius (chunk_and_local_from_global ((0 : Int), (0 : Int))).1
      ((0 : Int), (0 : Int)) PLAYER_CHUNK_UNLOAD_DISTANCE = true ∧
    chunk_unload [((0 : Int), (0 : Int))] (some ((100 : Int), (100 : Int))) []
      (GameState.mk [((0 : Int), (0 : Int))] [((0 : Int), (0 : Int))] []
        [spawn_chunk ((0 : Int), (0 : Int)) true [[TileKind.Empty]]]) =
      some (GameState.mk [] [((0 : Int), (0 : Int))] [] []) := by
  exact ⟨by decide, by decide⟩

/-- C3 (code bug record). With no camera entity registered, the camera load
pass fails (Query.single has nothing to return), and so does chunk_unload as
soon as one chunk entity exists; only with no chunks at all does chunk_unload
complete. The spec requires a missing singleton observer to contribute no
demand rather than be fatal. -/
theorem missing_camera_aborts_schedulers :
    load_chunks_camera (List.replicate 32 0) none (GameState.mk [] [] [] []) = none ∧
    chunk_unload [] none []
      (GameState.mk [((0 : Int), (0 : Int))] [] []
        [ChunkEntity.mk ((0 : Int), (0 : Int)) true []]) = none ∧
    chunk_unload [] none [] (GameState.mk [] [] [] []) =
      some (GameState.mk [] [] [] []) :=
  ⟨rfl, rfl, rfl⟩

/-- C10 (code bug record). chunk_unload can remove a coordinate from the
loaded-set while leaving it in the visible-set: with one player covering the
chunk within its unload radius and the camera far away, the first condition
keeps the chunk visible but the consumed player iterator makes the second
condition despawn it, so LoadedVisibleChunks is no longer a subset of
LoadedChunks. -/
theorem chunk_unload_leaves_stale_visible :
    chunk_unload [((32 : Int), (32 : Int))] (some ((50 : Int), (50 : Int))) []
      (GameState.mk [((0 : Int), (0 : Int))] [((0 : Int), (0 : Int))] []
        [ChunkEntity.mk ((0 : Int), (0 : Int)) true []]) =
      some (GameState.mk [] [((0 : Int), (0 : Int))] [] []) ∧
    ((0 : Int), (0 : Int)) ∈
      (GameState.mk [] [((0 : Int), (0 : Int))] [] [] : GameState).visible ∧
    ((0 : Int), (0 : Int)) ∉
      (GameState.mk [] [((0 : Int), (0 : Int))] [] [] : GameState).loaded := by
  exact ⟨by decide, by decide, by decide⟩
